import Mathlib

/-!
Verification of the rate-limited fetch scheduler of the vanguard_etfs
repository, shallowly embedded in Lean 4.

Durations are modelled as natural numbers of nanoseconds (Go
`time.Duration` multiples), counts as `Int` (Go `int`).  Blocking
`clock.Sleep` calls are modelled by returning the slept duration
alongside the new state, so the "elapsed time on the simulated clock"
of a run is the sum of the returned durations.
-/

namespace VanguardEtfs

/-! ## Gate / Throttler (src/edgar_client/throttler.go) -/

/-- Embeds the Go struct `Throttler {clock; d time.Duration;
originalCount int; remaining int}`.  The clock is modelled implicitly:
each operation returns the duration it slept. -/
structure Throttler where
  d : Nat
  originalCount : Int
  remaining : Int
deriving DecidableEq

/-- Embeds `Throttler.MaybeThrottle`: decrement `remaining`; when it
drops below zero, sleep `d` and set `remaining = originalCount - 1`
(the triggering call carries over), reporting `true`.  Returns
(throttled, slept-duration, new state). -/
def Throttler.MaybeThrottle (t : Throttler) : Bool × Nat × Throttler :=
  let r := t.remaining - 1
  if r < 0 then
    (true, t.d, { t with remaining := t.originalCount - 1 })
  else
    (false, 0, { t with remaining := r })

/-- Embeds `Throttler.ForcedWait`: sleep `d`, then set
`remaining = originalCount`.  Returns (slept-duration, new state). -/
def Throttler.ForcedWait (t : Throttler) : Nat × Throttler :=
  (t.d, { t with remaining := t.originalCount })

/-- Embeds `Throttler.RemainingFetches`. -/
def Throttler.RemainingFetches (t : Throttler) : Int :=
  t.remaining

/-- Embeds `Throttler.Reset`: set `remaining = originalCount` without
sleeping. -/
def Throttler.Reset (t : Throttler) : Throttler :=
  { t with remaining := t.originalCount }

/-- Embeds `newThrottler(clock, d, fetches)`. -/
def newThrottler (d : Nat) (fetches : Int) : Throttler :=
  ⟨d, fetches, fetches⟩

/-- State after `k` successive `MaybeThrottle` calls. -/
def iterMaybeThrottle (t : Throttler) : Nat → Throttler
  | 0 => t
  | k + 1 => ((iterMaybeThrottle t k).MaybeThrottle).2.2

/-- Whether call number `k + 1` (zero-indexed `k`) reports throttled. -/
def nthThrottled (t : Throttler) (k : Nat) : Bool :=
  ((iterMaybeThrottle t k).MaybeThrottle).1

/-- Duration slept by call number `k + 1` (zero-indexed `k`). -/
def nthSlept (t : Throttler) (k : Nat) : Nat :=
  ((iterMaybeThrottle t k).MaybeThrottle).2.1

lemma iterMaybeThrottle_reset (t : Throttler) (k : Nat)
    (hk : (k : Int) ≤ t.originalCount) :
    iterMaybeThrottle t.Reset k = ⟨t.d, t.originalCount, t.originalCount - k⟩ := by
  induction k with
  | zero =>
    simp [iterMaybeThrottle, Throttler.Reset]
  | succ n ih =>
    have hn : (n : Int) ≤ t.originalCount := by
      have : ((n : Int)) ≤ (n : Int) + 1 := by omega
      calc (n : Int) ≤ (n : Int) + 1 := this
        _ = ((n + 1 : Nat) : Int) := by push_cast; ring
        _ ≤ t.originalCount := hk
    have hpos : ¬ (t.originalCount - (n : Int) - 1 < 0) := by
      have : ((n + 1 : Nat) : Int) = (n : Int) + 1 := by push_cast; ring
      omega
    simp only [iterMaybeThrottle, ih hn, Throttler.MaybeThrottle]
    rw [if_neg hpos]
    have : t.originalCount - (n : Int) - 1 = t.originalCount - ((n + 1 : Nat) : Int) := by
      push_cast; ring
    simp [this]

/-- Claim C2 (amended): for a Gate with capacity `c ≥ 1`, immediately
after a reset the first `c` calls to `MaybeThrottle` never block
(throttled = false, zero elapsed time), and the `(c+1)`-th call blocks
for exactly the Gate's period (throttled = true). -/
theorem gate_admission_after_reset (t : Throttler) (k : Nat)
    (_hc : 1 ≤ t.originalCount) :
    (((k : Int) < t.originalCount) →
      nthThrottled t.Reset k = false ∧ nthSlept t.Reset k = 0)
    ∧ (((k : Int) = t.originalCount) →
      nthThrottled t.Reset k = true ∧ nthSlept t.Reset k = t.d) := by
  constructor
  · intro hk
    have hiter := iterMaybeThrottle_reset t k (le_of_lt hk)
    have hpos : ¬ (t.originalCount - (k : Int) - 1 < 0) := by omega
    simp [nthThrottled, nthSlept, hiter, Throttler.MaybeThrottle, hpos]
  · intro hk
    have hiter := iterMaybeThrottle_reset t k (le_of_eq hk)
    have hneg : t.originalCount - (k : Int) - 1 < 0 := by omega
    simp [nthThrottled, nthSlept, hiter, Throttler.MaybeThrottle, hneg]

/-- Witness for `gate_admission_after_reset`: capacity 2, period 7 —
calls 1 and 2 after a reset pass instantly, call 3 sleeps 7. -/
theorem gate_admission_after_reset_witness :
    (nthThrottled (Throttler.Reset (newThrottler 7 2)) 1 = false
      ∧ nthSlept (Throttler.Reset (newThrottler 7 2)) 1 = 0)
    ∧ (nthThrottled (Throttler.Reset (newThrottler 7 2)) 2 = true
      ∧ nthSlept (Throttler.Reset (newThrottler 7 2)) 2 = 7) :=
  ⟨(gate_admission_after_reset (newThrottler 7 2) 1 (by decide)).1 (by decide),
   (gate_admission_after_reset (newThrottler 7 2) 2 (by decide)).2 (by decide)⟩

/-- Counterexample to claim C2 as stated: for capacity `c = 1`, the
claim says the `c`-th (here: first) call after a reset blocks for the
period with throttled = true; in the code the first call after a reset
never blocks (`remaining` goes 1 → 0, not below 0), as the repository's
own throttler tests also assert. -/
theorem gate_admission_claim_cex :
    nthThrottled (Throttler.Reset (newThrottler 5 1)) 0 = false
    ∧ nthSlept (Throttler.Reset (newThrottler 5 1)) 0 = 0 := by
  decide

/-! ## Claim C8: Gate state invariant -/

/-- The Gate invariant `0 ≤ remaining ≤ capacity` (the Go field
`originalCount` is the capacity). -/
def Throttler.Inv (t : Throttler) : Prop :=
  0 ≤ t.remaining ∧ t.remaining ≤ t.originalCount

instance (t : Throttler) : Decidable t.Inv := by
  unfold Throttler.Inv; infer_instance

/-- Claim C8: for a Gate with capacity ≥ 1 satisfying the invariant
`0 ≤ remaining ≤ capacity`, every operation (`MaybeThrottle`,
`ForcedWait`, `Reset`) preserves it, and construction establishes it
(`RemainingFetches` is a pure accessor and does not change the state). -/
theorem throttler_invariant (t : Throttler) (hc : 1 ≤ t.originalCount)
    (hI : t.Inv) :
    ((t.MaybeThrottle).2.2).Inv ∧ ((t.ForcedWait).2).Inv ∧ (t.Reset).Inv
    ∧ ∀ d c : Int, 1 ≤ c → (newThrottler d.toNat c).Inv := by
  obtain ⟨h0, h1⟩ := hI
  refine ⟨?_, ?_, ?_, ?_⟩
  · unfold Throttler.Inv Throttler.MaybeThrottle
    by_cases h : t.remaining - 1 < 0
    · simp only [if_pos h]
      simp
      omega
    · simp only [if_neg h]
      simp
      omega
  · unfold Throttler.Inv Throttler.ForcedWait
    simp
    omega
  · unfold Throttler.Inv Throttler.Reset
    simp
    omega
  · intro d c hcpos
    unfold Throttler.Inv newThrottler
    simp
    omega

/-- Witness for `throttler_invariant` at a concrete Gate (period 5,
capacity 3). -/
theorem throttler_invariant_witness :
    (((newThrottler 5 3).MaybeThrottle).2.2).Inv
    ∧ (((newThrottler 5 3).ForcedWait).2).Inv
    ∧ ((newThrottler 5 3).Reset).Inv
    ∧ ∀ d c : Int, 1 ≤ c → (newThrottler d.toNat c).Inv :=
  throttler_invariant (newThrottler 5 3) (by decide) (by decide)

/-! ## Fetch Client (src/unnamed/part_004, package edgar_client) -/

/-- `kDefaultThrottleDuration = 105 * time.Millisecond`, in nanoseconds. -/
def kDefaultThrottleDuration : Nat := 105000000

/-- `kFetchesBeforeSleep = 80`. -/
def kFetchesBeforeSleep : Int := 80

/-- `kGlobalSleepDuration = 12 * time.Minute`, in nanoseconds. -/
def kGlobalSleepDuration : Nat := 720000000000

/-- Embeds the Go struct `EdgarClient` (the `http.Client` transport
handle is outside the scheduling model). -/
structure EdgarClient where
  userAgent : String
  rpsThrottler : Throttler
  globalThrottler : Throttler
deriving DecidableEq

/-- The pacing period computed by `internalNew`: `kDefaultThrottleDuration`
when `rps = 10`, otherwise `1000 * time.Millisecond / time.Duration(rps)`
(integer division, in nanoseconds). -/
def throttleDuration (rps : Int) : Nat :=
  if rps < 10 then 1000000000 / rps.toNat else kDefaultThrottleDuration

/-- Embeds `internalNew(clock, userAgent, rps)`; the two `panic` calls
on out-of-range `rps` become `Except.error` (the second panic message is
paraphrased). -/
def internalNew (userAgent : String) (rps : Int) : Except String EdgarClient :=
  if rps ≤ 0 then Except.error "RPS must be in [1, 10]"
  else if rps > 10 then
    Except.error "We do not allow rps > 10 per the SEC guideline to access EDGAR"
  else
    Except.ok ⟨userAgent, newThrottler (throttleDuration rps) 1,
      newThrottler kGlobalSleepDuration kFetchesBeforeSleep⟩

/-- The client produced by `internalNew` after validation, with pacing
period `p`: pacing gate of capacity 1, volume gate of capacity
`kFetchesBeforeSleep` and period `kGlobalSleepDuration`. -/
def mkClient (ua : String) (p : Nat) : EdgarClient :=
  ⟨ua, newThrottler p 1, newThrottler kGlobalSleepDuration kFetchesBeforeSleep⟩

/-- Embeds `EdgarClient.RemainingFetchesBeforeSleeping`. -/
def EdgarClient.RemainingFetchesBeforeSleeping (c : EdgarClient) : Int :=
  c.globalThrottler.RemainingFetches

/-- Embeds `EdgarClient.Sleep`: `globalThrottler.ForcedWait()` then
`rpsThrottler.Reset()`.  Returns (slept duration, new state). -/
def EdgarClient.Sleep (c : EdgarClient) : Nat × EdgarClient :=
  let g := c.globalThrottler.ForcedWait
  (g.1, ⟨c.userAgent, c.rpsThrottler.Reset, g.2⟩)

/-- The throttling prelude of `EdgarClient.GetResp`: volume gate
`MaybeThrottle`; when it reports throttled, reset the pacing gate; then
pacing gate `MaybeThrottle` unconditionally (its flag is ignored).
Returns (volume-throttled flag, total slept duration, new state). -/
def EdgarClient.throttleForRequest (c : EdgarClient) : Bool × Nat × EdgarClient :=
  let g := c.globalThrottler.MaybeThrottle
  let rps0 := if g.1 then c.rpsThrottler.Reset else c.rpsThrottler
  let r := rps0.MaybeThrottle
  (g.1, g.2.1 + r.2.1, ⟨c.userAgent, r.2.2, g.2.2⟩)

/-- Embeds the scheduler-visible behavior of `EdgarClient.GetResp`:
the throttling prelude, then the status check
`if resp.StatusCode != 200 { return Non-2xx error }`.  The transport
and body are abstracted: the argument is the status code of the
response and a successful body is `Unit`.  Returns (result, slept
duration, new state). -/
def EdgarClient.GetResp (c : EdgarClient) (statusCode : Nat) :
    Except String Unit × Nat × EdgarClient :=
  let t := c.throttleForRequest
  if statusCode ≠ 200 then
    (Except.error ("Non-2xx answer: " ++ toString statusCode), t.2.1, t.2.2)
  else
    (Except.ok (), t.2.1, t.2.2)

/-- `k` sequential `GetResp` throttling preludes, accumulating the
number of volume-gate throttles and the total slept duration. -/
def runFetches (c : EdgarClient) : Nat → Nat × Nat × EdgarClient
  | 0 => (0, 0, c)
  | k + 1 =>
    let s := c.throttleForRequest
    let rest := runFetches s.2.2 k
    ((if s.1 then 1 else 0) + rest.1, s.2.1 + rest.2.1, rest.2.2)

/-! ## Claim C9: construction-time rate validation -/

/-- Claim C9: constructing the Fetch Client succeeds exactly when the
requests-per-second override lies in `[1, 10]`; outside that range the
construction fails fatally (a panic, modelled as `Except.error`) before
any scheduling can happen. -/
theorem rps_validation (ua : String) (rps : Int) :
    (∃ c, internalNew ua rps = Except.ok c) ↔ (1 ≤ rps ∧ rps ≤ 10) := by
  unfold internalNew
  by_cases hl : rps ≤ 0
  · rw [if_pos hl]
    simp
    omega
  · rw [if_neg hl]
    by_cases hh : rps > 10
    · rw [if_pos hh]
      simp
      omega
    · rw [if_neg hh]
      simp
      omega

/-! ## Claim C10: pacing-period lower bound -/

/-- Claim C10: for every accepted `rps` in `[1, 10]` the pacing period
is at least 105 ms: exactly 105 ms when `rps = 10`, and exactly
`1000 ms / rps` (integer nanosecond division, at least 111 ms) when
`rps < 10` — so the configured cadence never exceeds 10 requests per
second. -/
theorem pacing_period_bound (rps : Int) (h1 : 1 ≤ rps) (h2 : rps ≤ 10) :
    105000000 ≤ throttleDuration rps
    ∧ (rps = 10 → throttleDuration rps = 105000000)
    ∧ (rps < 10 → throttleDuration rps = 1000000000 / rps.toNat
        ∧ 111000000 ≤ throttleDuration rps) := by
  interval_cases rps <;> refine ⟨by decide, by decide, by decide⟩

/-- Witness for `pacing_period_bound` at `rps = 9`
(period `1000000000 / 9 = 111111111` ns). -/
theorem pacing_period_bound_witness :
    105000000 ≤ throttleDuration 9
    ∧ ((9 : Int) = 10 → throttleDuration 9 = 105000000)
    ∧ ((9 : Int) < 10 → throttleDuration 9 = 1000000000 / (9 : Int).toNat
        ∧ 111000000 ≤ throttleDuration 9) :=
  pacing_period_bound 9 (by decide) (by decide)

/-! ## Claim C5: pacing composition of the Fetch Client -/

lemma maybeThrottle_of_nonneg (t : Throttler) (h : 1 ≤ t.remaining) :
    t.MaybeThrottle = (false, 0, ⟨t.d, t.originalCount, t.remaining - 1⟩) := by
  unfold Throttler.MaybeThrottle
  rw [if_neg (by omega)]

lemma maybeThrottle_of_exhausted (t : Throttler) (h : t.remaining ≤ 0) :
    t.MaybeThrottle = (true, t.d, ⟨t.d, t.originalCount, t.originalCount - 1⟩) := by
  unfold Throttler.MaybeThrottle
  rw [if_pos (by omega)]

lemma throttleForRequest_steady (ua : String) (p : Nat) (g : Throttler)
    (hg : 1 ≤ g.remaining) :
    EdgarClient.throttleForRequest ⟨ua, ⟨p, 1, 0⟩, g⟩
      = (false, p, ⟨ua, ⟨p, 1, 0⟩, ⟨g.d, g.originalCount, g.remaining - 1⟩⟩) := by
  unfold EdgarClient.throttleForRequest
  rw [maybeThrottle_of_nonneg g hg]
  simp [maybeThrottle_of_exhausted ⟨p, 1, 0⟩ (by simp)]

lemma runFetches_steady (ua : String) (p : Nat) (k : Nat) (g : Throttler)
    (hk : (k : Int) ≤ g.remaining) :
    runFetches ⟨ua, ⟨p, 1, 0⟩, g⟩ k
      = (0, k * p, ⟨ua, ⟨p, 1, 0⟩, ⟨g.d, g.originalCount, g.remaining - k⟩⟩) := by
  induction k generalizing g with
  | zero =>
    simp [runFetches]
  | succ n ih =>
    have hcast : ((n + 1 : Nat) : Int) = (n : Int) + 1 := by push_cast; ring
    have hg1 : 1 ≤ g.remaining := by omega
    have hn : (n : Int) ≤ g.remaining - 1 := by omega
    simp only [runFetches, throttleForRequest_steady ua p g hg1]
    rw [ih ⟨g.d, g.originalCount, g.remaining - 1⟩ hn]
    have h3 : g.remaining - 1 - (n : Int) = g.remaining - ((n + 1 : Nat) : Int) := by
      omega
    simp [h3, Nat.succ_mul, Nat.add_comm]

lemma throttleForRequest_fresh (ua : String) (p : Nat) :
    (mkClient ua p).throttleForRequest
      = (false, 0, ⟨ua, ⟨p, 1, 0⟩,
          ⟨kGlobalSleepDuration, kFetchesBeforeSleep, kFetchesBeforeSleep - 1⟩⟩) := by
  unfold mkClient EdgarClient.throttleForRequest newThrottler
  rw [maybeThrottle_of_nonneg ⟨kGlobalSleepDuration, kFetchesBeforeSleep, kFetchesBeforeSleep⟩
    (by decide)]
  simp [maybeThrottle_of_nonneg ⟨p, 1, 1⟩ (by simp)]

/-- Claim C5: (a) on any `GetResp` call where the volume Gate reports
throttled, the pacing Gate is reset first, so the call sleeps only the
volume period (never blocks twice); (b) for `k ≥ 1` sequential fetches
from a fresh client with pacing period `p` and `k` within the volume
quota, the volume Gate never throttles and the total blocking time on
the simulated clock is exactly `(k - 1) * p`. -/
theorem fetchClient_pacing_composition :
    (∀ c : EdgarClient, 1 ≤ c.rpsThrottler.originalCount →
      (c.globalThrottler.MaybeThrottle).1 = true →
      (c.throttleForRequest).2.1 = c.globalThrottler.d)
    ∧ (∀ (ua : String) (p k : Nat), 1 ≤ k → (k : Int) ≤ kFetchesBeforeSleep →
      (runFetches (mkClient ua p) k).1 = 0
      ∧ (runFetches (mkClient ua p) k).2.1 = (k - 1) * p) := by
  constructor
  · intro c hc hthr
    have hex : c.globalThrottler.remaining ≤ 0 := by
      by_contra h
      rw [maybeThrottle_of_nonneg c.globalThrottler (by omega)] at hthr
      simp at hthr
    unfold EdgarClient.throttleForRequest
    rw [maybeThrottle_of_exhausted c.globalThrottler hex]
    simp [Throttler.Reset, maybeThrottle_of_nonneg
      ⟨c.rpsThrottler.d, c.rpsThrottler.originalCount, c.rpsThrottler.originalCount⟩ hc]
  · intro ua p k hk hquota
    obtain ⟨n, rfl⟩ : ∃ n, k = n + 1 := ⟨k - 1, by omega⟩
    have hcast : ((n + 1 : Nat) : Int) = (n : Int) + 1 := by push_cast; ring
    have hn : (n : Int) ≤ kFetchesBeforeSleep - 1 := by omega
    simp only [runFetches, throttleForRequest_fresh ua p]
    rw [runFetches_steady ua p n
      ⟨kGlobalSleepDuration, kFetchesBeforeSleep, kFetchesBeforeSleep - 1⟩ hn]
    simp

/-- Witness for `fetchClient_pacing_composition`: part (a) at a client
whose volume gate is exhausted, part (b) at 3 fetches with pacing
period 105000000 ns (total 2 × 105000000). -/
theorem fetchClient_pacing_composition_witness :
    ((EdgarClient.throttleForRequest
        ⟨"ua", newThrottler 105000000 1, ⟨720000000000, 80, 0⟩⟩).2.1
      = 720000000000)
    ∧ (runFetches (mkClient "ua" 105000000) 3).1 = 0
    ∧ (runFetches (mkClient "ua" 105000000) 3).2.1 = 2 * 105000000 :=
  ⟨fetchClient_pacing_composition.1
      ⟨"ua", newThrottler 105000000 1, ⟨720000000000, 80, 0⟩⟩ (by decide) (by decide),
   (fetchClient_pacing_composition.2 "ua" 105000000 3 (by decide) (by decide)).1,
   (fetchClient_pacing_composition.2 "ua" 105000000 3 (by decide) (by decide)).2⟩

/-! ## Claim C3: status handling of GetResp -/

/-- Claim C3 (code divergence): `GetResp` rejects every response with
status code different from 200 — including 2xx successes such as 204 —
even though its own error message reads "Non-2xx answer" and the spec
says only codes outside 200–299 are hard failures.  The throttler state
is indeed not rolled back on failure: the state and slept time after a
204 (error) are identical to those after a 200 (success), and the
volume counter is decremented either way. -/
theorem getResp_status_divergence :
    ((mkClient "ua" 105000000).GetResp 204).1
        = Except.error "Non-2xx answer: 204"
    ∧ ((200 ≤ 204 ∧ 204 ≤ 299) ∧ ((mkClient "ua" 105000000).GetResp 200).1 = Except.ok ())
    ∧ ((mkClient "ua" 105000000).GetResp 204).2
        = ((mkClient "ua" 105000000).GetResp 200).2
    ∧ (((mkClient "ua" 105000000).GetResp 204).2.2.RemainingFetchesBeforeSleeping
        = (mkClient "ua" 105000000).RemainingFetchesBeforeSleeping - 1) := by
  refine ⟨rfl, ⟨⟨by decide, by decide⟩, rfl⟩, rfl, by decide⟩

/-! ## Resumable Range Tracker (src/main.go): date spans and filtering.
Dates are ISO `YYYY-MM-DD` strings and Go `strings.Compare` is the
lexicographic order, embedded as the `LinearOrder` on `String`. -/

/-- Embeds `SubmissionInfo {Cik int; AccessionNumber string;
FilingDate string}`. -/
structure SubmissionInfo where
  Cik : Int
  AccessionNumber : String
  FilingDate : String
deriving DecidableEq

/-- Embeds `FilingDateSpan {Start, End string}`: both ends inclusive,
both `""` meaning the empty span. -/
structure FilingDateSpan where
  Start : String
  End : String
deriving DecidableEq

/-- Embeds `FilingDateSpan.isEmpty`: `Start == "" || End == ""`. -/
def FilingDateSpan.isEmpty (f : FilingDateSpan) : Bool :=
  f.Start == "" || f.End == ""

/-- Embeds `FilingDateSpan.spans`: `strings.Compare(date, Start) >= 0
&& strings.Compare(date, End) <= 0`. -/
def FilingDateSpan.spans (f : FilingDateSpan) (date : String) : Bool :=
  decide (f.Start ≤ date) && decide (date ≤ f.End)

/-- Embeds `FilingDateSpan.update`: swap the two new dates when given
in reverse order, then widen each bound of the span. -/
def FilingDateSpan.update (f : FilingDateSpan) (start stop : String) : FilingDateSpan :=
  let n := if start > stop then (stop, start) else (start, stop)
  ⟨if f.Start = "" ∨ n.1 < f.Start then n.1 else f.Start,
   if f.End = "" ∨ n.2 > f.End then n.2 else f.End⟩

/-- Embeds `filterFilingDates`: the input when the span is empty,
otherwise the loop appends exactly the descriptors whose filing date
the span does not cover. -/
def filterFilingDates (infos : List SubmissionInfo) (fetchedDates : FilingDateSpan) :
    List SubmissionInfo :=
  if fetchedDates.isEmpty then infos
  else infos.foldl
    (fun res info => if fetchedDates.spans info.FilingDate then res else res ++ [info]) []

/-! ## Claim C6: Range Tracker filtering -/

lemma foldl_append_filter (p : SubmissionInfo → Bool) :
    ∀ (l acc : List SubmissionInfo),
      l.foldl (fun res info => if p info then res else res ++ [info]) acc
        = acc ++ l.filter (fun info => ! p info)
  | [], acc => by simp
  | x :: xs, acc => by
    by_cases h : p x
    · simp [List.foldl_cons, List.filter_cons, h, foldl_append_filter p xs acc]
    · simp [List.foldl_cons, List.filter_cons, h, foldl_append_filter p xs (acc ++ [x])]

/-- Claim C6: filtering with an empty span returns the backlog
unchanged; filtering with a non-empty span keeps exactly the
descriptors whose filing date lies outside `[Start, End]` inclusive,
preserving their relative order (the result is `List.filter`, a
sublist of the input). -/
theorem filterFilingDates_spec (infos : List SubmissionInfo) (s : FilingDateSpan) :
    filterFilingDates infos s
      = (if s.isEmpty then infos
         else infos.filter (fun info => ! s.spans info.FilingDate))
    ∧ (filterFilingDates infos s).Sublist infos
    ∧ (s.isEmpty = false → ∀ info, info ∈ filterFilingDates infos s ↔
        info ∈ infos
        ∧ ¬(s.Start ≤ info.FilingDate ∧ info.FilingDate ≤ s.End)) := by
  have hmain : filterFilingDates infos s
      = (if s.isEmpty then infos
         else infos.filter (fun info => ! s.spans info.FilingDate)) := by
    unfold filterFilingDates
    by_cases h : s.isEmpty
    · rw [if_pos h, if_pos h]
    · rw [if_neg h, if_neg h, foldl_append_filter, List.nil_append]
  refine ⟨hmain, ?_, ?_⟩
  · rw [hmain]
    by_cases h : s.isEmpty
    · rw [if_pos h]
    · rw [if_neg h]
      exact List.filter_sublist infos
  · intro hne info
    rw [hmain, hne]
    simp [FilingDateSpan.spans, -not_and, not_and_or]

/-- Witness for `filterFilingDates_spec`, on the repository's own
filter test case "Filter a span at start". -/
theorem filterFilingDates_spec_witness :
    (⟨36405, "d", "2025-10-03"⟩ : SubmissionInfo) ∈
        filterFilingDates
          [⟨36405, "a", "2025-10-01"⟩, ⟨36405, "b", "2025-10-01"⟩,
           ⟨36405, "c", "2025-10-02"⟩, ⟨36405, "d", "2025-10-03"⟩]
          ⟨"2025-10-01", "2025-10-02"⟩
      ↔ ((⟨36405, "d", "2025-10-03"⟩ : SubmissionInfo) ∈
          [⟨36405, "a", "2025-10-01"⟩, ⟨36405, "b", "2025-10-01"⟩,
           ⟨36405, "c", "2025-10-02"⟩, ⟨36405, "d", "2025-10-03"⟩]
        ∧ ¬("2025-10-01" ≤ "2025-10-03" ∧ "2025-10-03" ≤ "2025-10-02")) :=
  (filterFilingDates_spec
    [⟨36405, "a", "2025-10-01"⟩, ⟨36405, "b", "2025-10-01"⟩,
     ⟨36405, "c", "2025-10-02"⟩, ⟨36405, "d", "2025-10-03"⟩]
    ⟨"2025-10-01", "2025-10-02"⟩).2.2 (by decide) ⟨36405, "d", "2025-10-03"⟩

/-! ## Claim C7: extend (update) is normalizing, monotonic, order-independent -/

lemma norm_pair (a b : String) :
    (if a > b then (b, a) else (a, b)) = (min a b, max a b) := by
  rcases le_or_lt a b with h | h
  · rw [if_neg (not_lt.mpr h), min_eq_left h, max_eq_right h]
  · rw [if_pos h, min_eq_right h.le, max_eq_left h.le]

lemma update_eq (f : FilingDateSpan) (a b : String) :
    f.update a b
      = ⟨if f.Start = "" ∨ min a b < f.Start then min a b else f.Start,
         if f.End = "" ∨ max a b > f.End then max a b else f.End⟩ := by
  unfold FilingDateSpan.update
  rw [norm_pair]

/-- Claim C7: `update` normalizes its two date arguments (swapping a
reversed pair), is argument-order independent, and only widens: the
result always contains the interval between the two new dates, equals
exactly that interval when the span was empty, and equals the union
bounds `min`/`max` of the old span and the new interval when the span
was non-empty (hence never shrinks). -/
theorem update_spec (f : FilingDateSpan) (a b : String) :
    f.update a b = f.update b a
    ∧ (f.update a b).Start ≤ min a b
    ∧ max a b ≤ (f.update a b).End
    ∧ (f.Start = "" ∧ f.End = "" → f.update a b = ⟨min a b, max a b⟩)
    ∧ (f.Start ≠ "" → f.End ≠ "" →
        f.update a b = ⟨min f.Start (min a b), max f.End (max a b)⟩) := by
  refine ⟨?_, ?_, ?_, ?_, ?_⟩
  · rw [update_eq f a b, update_eq f b a, min_comm b a, max_comm b a]
  · rw [update_eq]
    by_cases h : f.Start = "" ∨ min a b < f.Start
    · simp only [if_pos h]
      exact le_refl _
    · simp only [if_neg h]
      push_neg at h
      exact not_lt.mp h.2
  · rw [update_eq]
    by_cases h : f.End = "" ∨ max a b > f.End
    · simp only [if_pos h]
      exact le_refl _
    · simp only [if_neg h]
      push_neg at h
      exact not_lt.mp h.2
  · rintro ⟨hs, he⟩
    rw [update_eq]
    simp [hs, he]
  · intro hs he
    rw [update_eq]
    have h1 : (if f.Start = "" ∨ min a b < f.Start then min a b else f.Start)
        = min f.Start (min a b) := by
      by_cases hlt : min a b < f.Start
      · rw [if_pos (Or.inr hlt), min_eq_right hlt.le]
      · have hcond : ¬ (f.Start = "" ∨ min a b < f.Start) := by
          rintro (h | h)
          exacts [hs h, hlt h]
        rw [if_neg hcond, min_eq_left (not_lt.mp hlt)]
    have h2 : (if f.End = "" ∨ max a b > f.End then max a b else f.End)
        = max f.End (max a b) := by
      by_cases hgt : max a b > f.End
      · rw [if_pos (Or.inr hgt), max_eq_right hgt.le]
      · have hcond : ¬ (f.End = "" ∨ max a b > f.End) := by
          rintro (h | h)
          exacts [he h, hgt h]
        rw [if_neg hcond, max_eq_left (not_lt.mp hgt)]
    rw [h1, h2]

/-- Witness for `update_spec` on the repository's own span test case
"start/end swapped": span [2025-01-01, 2025-01-02] extended with the
reversed pair (2025-01-03, 2025-01-00). -/
theorem update_spec_witness :
    (FilingDateSpan.update ⟨"2025-01-01", "2025-01-02"⟩ "2025-01-03" "2025-01-00"
      = FilingDateSpan.update ⟨"2025-01-01", "2025-01-02"⟩ "2025-01-00" "2025-01-03")
    ∧ (FilingDateSpan.update ⟨"2025-01-01", "2025-01-02"⟩ "2025-01-03" "2025-01-00"
      = ⟨min "2025-01-01" (min "2025-01-03" "2025-01-00"),
         max "2025-01-02" (max "2025-01-03" "2025-01-00")⟩) :=
  ⟨(update_spec ⟨"2025-01-01", "2025-01-02"⟩ "2025-01-03" "2025-01-00").1,
   (update_spec ⟨"2025-01-01", "2025-01-02"⟩ "2025-01-03" "2025-01-00").2.2.2.2
     (by decide) (by decide)⟩

/-! ## Batch Boundary Selector (src/main.go, the block in `main` guarded
by `len(submissions) > kMaxSubmissionsToFetch`) -/

/-- `kMaxSubmissionsToFetch = 50`. -/
def kMaxSubmissionsToFetch : Nat := 50

/-- Fallback descriptor for out-of-range list reads (never reached
under the selector's length guard). -/
def kNoSubmission : SubmissionInfo := ⟨0, "", ""⟩

/-- Position `j` is a boundary: the filing dates of the adjacent
descriptors `backlog[j]` and `backlog[j+1]` differ (this is the Go
condition `submissions[i-1].FilingDate != submissions[i].FilingDate`
with `i = j + 1`). -/
def boundaryAt (subs : List SubmissionInfo) (j : Nat) : Prop :=
  (subs.getD j kNoSubmission).FilingDate ≠ (subs.getD (j + 1) kNoSubmission).FilingDate

instance (subs : List SubmissionInfo) (j : Nat) : Decidable (boundaryAt subs j) := by
  unfold boundaryAt
  infer_instance

/-- One iteration of the Go scan `for i := 1; i <= kMaxSubmissionsToFetch`
(with `i = j + 1`): record `maxSubmissionIdx = i` when the dates differ. -/
def scanStep (subs : List SubmissionInfo) (acc : Int) (j : Nat) : Int :=
  if boundaryAt subs j then (j : Int) + 1 else acc

/-- The Go loop computing `maxSubmissionIdx`, starting from `-1`. -/
def maxSubmissionIdx (subs : List SubmissionInfo) : Int :=
  (List.range kMaxSubmissionsToFetch).foldl (scanStep subs) (-1)

/-- Embeds the boundary-selection block of `main`: when the backlog
exceeds `kMaxSubmissionsToFetch`, scan for the largest boundary index
and truncate there; `panic("No filingDate boundary found in data")`
when none was recorded is modelled as `none`. -/
def selectSubmissions (subs : List SubmissionInfo) : Option (List SubmissionInfo) :=
  if subs.length > kMaxSubmissionsToFetch then
    if maxSubmissionIdx subs = -1 then none
    else some (subs.take (maxSubmissionIdx subs).toNat)
  else some subs

/-- The same block together with the Fetch Client that is in scope in
`main`: the block never touches the client (no `Sleep`, no rescan), so
the client state passes through unchanged. -/
def selectWithClient (c : EdgarClient) (subs : List SubmissionInfo) :
    Option (List SubmissionInfo) × EdgarClient :=
  (selectSubmissions subs, c)

lemma scan_spec (subs : List SubmissionInfo) (n : Nat) :
    ((List.range n).foldl (scanStep subs) (-1) = -1 ∧ ∀ j, j < n → ¬ boundaryAt subs j)
    ∨ (∃ j, j < n ∧ (List.range n).foldl (scanStep subs) (-1) = (j : Int) + 1
        ∧ boundaryAt subs j ∧ ∀ i, j < i → i < n → ¬ boundaryAt subs i) := by
  induction n with
  | zero =>
    left
    exact ⟨rfl, fun j hj => absurd hj (Nat.not_lt_zero j)⟩
  | succ m ih =>
    rw [List.range_succ, List.foldl_append, List.foldl_cons, List.foldl_nil]
    by_cases hb : boundaryAt subs m
    · right
      refine ⟨m, Nat.lt_succ_self m, ?_, hb, ?_⟩
      · unfold scanStep
        rw [if_pos hb]
      · intro i h1 h2
        exact absurd h1 (by omega)
    · unfold scanStep
      rw [if_neg hb]
      rcases ih with ⟨hm, hall⟩ | ⟨j, hj, hm, hbj, hmax⟩
      · left
        refine ⟨hm, fun j hj => ?_⟩
        rcases Nat.lt_succ_iff_lt_or_eq.mp hj with h | h
        · exact hall j h
        · exact h ▸ hb
      · right
        exact ⟨j, Nat.lt_succ_of_lt hj, hm, hbj, fun i h1 h2 =>
          (Nat.lt_succ_iff_lt_or_eq.mp h2).elim (hmax i h1) (fun he => he ▸ hb)⟩

/-! ## Claim C4: Batch Boundary Selector cut choice -/

/-- Claim C4 (amended): the quota is the constant
`kMaxSubmissionsToFetch = 50`, not the client's remaining volume count.
For a backlog longer than 50, if `j + 1` is the largest index `i` in
`1..50` at which `backlog[i-1].FilingDate` differs from
`backlog[i].FilingDate`, the selector returns the prefix
`backlog[0..i)`, and the element just after the cut has a different
filing date from the last included element. -/
theorem selectSubmissions_cut (subs : List SubmissionInfo) (j : Nat)
    (hlen : kMaxSubmissionsToFetch < subs.length)
    (hj : j < kMaxSubmissionsToFetch)
    (hb : boundaryAt subs j)
    (hmax : ∀ i, j < i → i < kMaxSubmissionsToFetch → ¬ boundaryAt subs i) :
    selectSubmissions subs = some (subs.take (j + 1))
    ∧ (subs.getD j kNoSubmission).FilingDate
        ≠ (subs.getD (j + 1) kNoSubmission).FilingDate := by
  have hidx : maxSubmissionIdx subs = (j : Int) + 1 := by
    rcases scan_spec subs kMaxSubmissionsToFetch with ⟨_, hall⟩ | ⟨j2, hj2, hm, hbj2, hmax2⟩
    · exact absurd hb (hall j hj)
    · have hjj : j = j2 := by
        rcases Nat.lt_trichotomy j j2 with h | h | h
        · exact absurd hbj2 (hmax j2 h hj2)
        · exact h
        · exact absurd hb (hmax2 j h hj)
      exact hjj ▸ hm
  refine ⟨?_, hb⟩
  unfold selectSubmissions
  rw [if_pos hlen, hidx, if_neg (by omega)]
  have htn : ((j : Int) + 1).toNat = j + 1 := by omega
  rw [htn]

/-- A backlog of 50 descriptors filed 2025-10-02 followed by one filed
2025-10-01. -/
def backlog51 : List SubmissionInfo :=
  List.replicate 50 ⟨36405, "", "2025-10-02"⟩ ++ [⟨36405, "", "2025-10-01"⟩]

/-- Witness for `selectSubmissions_cut`: on `backlog51` the largest
boundary is at scan index 50 (`j = 49`), so the first 50 descriptors
are selected. -/
theorem selectSubmissions_cut_witness :
    selectSubmissions backlog51 = some (backlog51.take 50)
    ∧ (backlog51.getD 49 kNoSubmission).FilingDate
        ≠ (backlog51.getD 50 kNoSubmission).FilingDate :=
  selectSubmissions_cut backlog51 49 (by decide) (by decide) (by decide)
    (fun i h1 h2 => absurd h1 (Nat.not_lt.mpr (Nat.le_of_lt_succ h2)))

/-- A backlog of 80 descriptors filed 2025-10-02 followed by one filed
2025-10-01; its only boundary is at position 79 (scan index 80). -/
def backlog81 : List SubmissionInfo :=
  List.replicate 80 ⟨36405, "", "2025-10-02"⟩ ++ [⟨36405, "", "2025-10-01"⟩]

/-- Counterexample to claim C4 as stated: a fresh client's
`remainingBeforeSleep` quota is 80, and on `backlog81` (length 81, a
boundary at scan index 80) the claim predicts the prefix of length 80;
the code scans only `1..kMaxSubmissionsToFetch = 50`, finds no boundary
there, and aborts instead. -/
theorem selectSubmissions_quota_cex :
    (mkClient "ua" 105000000).RemainingFetchesBeforeSleeping = 80
    ∧ backlog81.length = 81
    ∧ boundaryAt backlog81 79
    ∧ selectSubmissions backlog81 = none
    ∧ selectSubmissions backlog81 ≠ some (backlog81.take 80) := by
  refine ⟨rfl, by decide, by decide, by decide, by decide⟩

/-! ## Claim C1: Batch Boundary Selector fallback -/

/-- Claim C1 (amended): when the backlog is longer than
`kMaxSubmissionsToFetch = 50` and the scan over indices `1..50` finds
no index where consecutive filing dates differ, scheduling aborts
fatally at once; no forced replenishment (`Sleep`) is performed and no
second scan occurs — the client state passes through unchanged. -/
theorem selectSubmissions_no_boundary_aborts (c : EdgarClient)
    (subs : List SubmissionInfo)
    (hlen : kMaxSubmissionsToFetch < subs.length)
    (hnone : ∀ j, j < kMaxSubmissionsToFetch → ¬ boundaryAt subs j) :
    selectWithClient c subs = (none, c) := by
  have hidx : maxSubmissionIdx subs = -1 := by
    rcases scan_spec subs kMaxSubmissionsToFetch with ⟨hm, _⟩ | ⟨j, hj, _, hbj, _⟩
    · exact hm
    · exact absurd hbj (hnone j hj)
  unfold selectWithClient selectSubmissions
  rw [if_pos hlen, if_pos hidx]

/-- A backlog of 51 descriptors all filed on the same date. -/
def uniform51 : List SubmissionInfo :=
  List.replicate 51 ⟨36405, "", "2025-10-02"⟩

/-- A client whose volume gate has 40 of its 80 fetches remaining. -/
def clientRem40 : EdgarClient :=
  ⟨"ua", newThrottler 105000000 1, ⟨720000000000, 80, 40⟩⟩

/-- Witness for `selectSubmissions_no_boundary_aborts` at the uniform
51-descriptor backlog. -/
theorem selectSubmissions_no_boundary_aborts_witness :
    selectWithClient clientRem40 uniform51 = (none, clientRem40) :=
  selectSubmissions_no_boundary_aborts clientRem40 uniform51 (by decide) (by decide)

/-- Counterexample to claim C1 as stated: on a backlog whose whole scan
window is one date-group, the claim requires one `forceSleep` (which
would replenish the volume gate to capacity 80 after sleeping) before
any abort; the code aborts immediately with the client unchanged — its
volume gate still holds 40 of 80 and no time was slept. -/
theorem boundary_fallback_cex :
    selectWithClient clientRem40 uniform51 = (none, clientRem40)
    ∧ clientRem40.globalThrottler.remaining = 40
    ∧ clientRem40.globalThrottler.originalCount = 80
    ∧ (clientRem40.Sleep).2.globalThrottler.remaining = 80 := by
  refine ⟨by decide, rfl, rfl, rfl⟩

end VanguardEtfs
